import Mathlib

/-!
Verification of the SURTHILANAS bot against its specification.

The development shallowly embeds the Python sources:
  * `utils.py`    — validators (`validar_fecha`, `validar_monto`,
    `validar_numero_factura`, `normalizar_texto`);
  * `config.py`   — the configured category and payment-method lists;
  * `bot.py`      — the sale-entry conversation handlers and the daily-close
    conversation handlers, modelled as pure step functions on the per-user
    session data, with persistence modelled as the record handed to the store;
  * `google_sheets.py` — `obtener_ventas`, `obtener_gastos`,
    `calcular_totales`, with the remote read modelled as an `Except` value;
  * `ml_analisis.py`   — `obtener_resumen_general`, `detectar_anomalias`,
    `entrenar_modelo_ventas` over a transaction table.

Python floats are modelled by exact rationals (`ℚ`); floating-point special
values (`inf`, `nan`), binary rounding, underflow and overflow are outside the
model.  Python strings are modelled by Lean strings; `str.strip` strips the
ASCII whitespace characters and `str.lower` lowers ASCII letters (full Unicode
case folding is outside the model).
-/

namespace Surthilanas

/-! ## Python string primitives -/

/-- ASCII whitespace stripped by Python `str.strip()`. -/
def pyWhitespace : List Char := [' ', '\t', '\n', '\r', '\x0b', '\x0c']

def isPySpace (c : Char) : Bool := pyWhitespace.contains c

def stripList (l : List Char) : List Char :=
  ((l.dropWhile isPySpace).reverse.dropWhile isPySpace).reverse

/-- Model of Python `str.strip()`. -/
def pyStrip (s : String) : String := ⟨stripList s.data⟩

/-- Model of Python `str.lower()` on one character (ASCII letters only). -/
def pyLowerChar (c : Char) : Char :=
  if 'A' ≤ c ∧ c ≤ 'Z' then Char.ofNat (c.toNat + 32) else c

/-- Model of Python `str.lower()`. -/
def pyLower (s : String) : String := ⟨s.data.map pyLowerChar⟩

def isDigitChar (c : Char) : Bool := 48 ≤ c.toNat ∧ c.toNat ≤ 57

/-- Value of a list of decimal digit characters, most significant first. -/
def natOfDigits (l : List Char) : ℕ :=
  l.foldl (fun a c => 10 * a + (c.toNat - 48)) 0

/-- Model of Python string slicing `s[:n]`. -/
def strTakeN (s : String) (n : ℕ) : String := ⟨s.data.take n⟩

/-! ## Model of Python `float(..)` on finite decimal literals

`float` accepts an optional sign, a decimal mantissa and an optional decimal
exponent.  The special spellings `inf`/`infinity`/`nan` and digit-group
underscores also accepted by Python are outside this rational model. -/

/-- Split a character list at the first `e`/`E` (exponent marker). -/
def splitAtExp : List Char → List Char × Option (List Char)
  | [] => ([], none)
  | c :: r =>
    if c = 'e' ∨ c = 'E' then ([], some r)
    else
      let p := splitAtExp r
      (c :: p.1, p.2)

/-- Consume an optional leading sign, returning the sign as a rational. -/
def signSplit (l : List Char) : ℚ × List Char :=
  match l with
  | [] => (1, [])
  | c :: r => if c = '+' then (1, r) else if c = '-' then (-1, r) else (1, c :: r)

/-- Parse a decimal mantissa `[sign] (digits [. digits] | . digits)`. -/
def mantissaOf (l : List Char) : Option ℚ :=
  let p := signSplit l
  let ip := p.2.takeWhile isDigitChar
  let r1 := p.2.dropWhile isDigitChar
  match r1 with
  | [] => if ip = [] then none else some (p.1 * natOfDigits ip)
  | c :: r2 =>
    if c = '.' then
      let fp := r2.takeWhile isDigitChar
      let r3 := r2.dropWhile isDigitChar
      if r3 = [] then
        if ip = [] ∧ fp = [] then none
        else some (p.1 * ((natOfDigits ip : ℚ) + (natOfDigits fp : ℚ) / 10 ^ fp.length))
      else none
    else none

/-- Consume an optional leading sign, returning the sign as an integer. -/
def signSplitZ (l : List Char) : ℤ × List Char :=
  match l with
  | [] => (1, [])
  | c :: r => if c = '+' then (1, r) else if c = '-' then (-1, r) else (1, c :: r)

/-- Parse a decimal exponent `[sign] digits`. -/
def expOf (l : List Char) : Option ℤ :=
  let p := signSplitZ l
  let ds := p.2.takeWhile isDigitChar
  let r := p.2.dropWhile isDigitChar
  if ds = [] ∨ r ≠ [] then none else some (p.1 * natOfDigits ds)

/-- Model of Python `float(s)` over finite decimal literals: `some` the exact
rational value on success, `none` where Python raises `ValueError`. -/
def pyFloatQ (s : String) : Option ℚ :=
  let me := splitAtExp s.data
  match mantissaOf me.1 with
  | none => none
  | some q =>
    match me.2 with
    | none => some q
    | some el =>
      match expOf el with
      | some z => some (q * (10 : ℚ) ^ z)
      | none => none

/-! ## utils.py — validators -/

/-- Leap-year rule used by `datetime.strptime` calendar validation. -/
def isLeapYear (y : ℕ) : Bool := y % 4 = 0 ∧ (y % 100 ≠ 0 ∨ y % 400 = 0)

def daysInMonth (y m : ℕ) : ℕ :=
  if m = 2 then (if isLeapYear y then 29 else 28)
  else if m = 4 ∨ m = 6 ∨ m = 9 ∨ m = 11 then 30
  else 31

/-- Calendar validity as checked by `datetime.strptime(s, '%d/%m/%Y')`
(`datetime` years range over 1..9999). -/
def validCalendarDate (d m y : ℕ) : Bool :=
  1 ≤ y ∧ y ≤ 9999 ∧ 1 ≤ m ∧ m ≤ 12 ∧ 1 ≤ d ∧ d ≤ daysInMonth y m

/-- Shape test for the regex `^\d{2}/\d{2}/\d{4}$`, returning the day, month
and year fields on a match. -/
def fechaFields (s : String) : Option (ℕ × ℕ × ℕ) :=
  match s.data with
  | [d1, d2, s1, m1, m2, s2, y1, y2, y3, y4] =>
    if s1 = '/' ∧ s2 = '/' ∧ ([d1, d2, m1, m2, y1, y2, y3, y4]).all isDigitChar then
      some (natOfDigits [d1, d2], natOfDigits [m1, m2], natOfDigits [y1, y2, y3, y4])
    else none
  | _ => none

/-- `utils.validar_fecha`.  The resolution of the literal `hoy` to the current
date in the configured timezone is modelled by the parameter `today`. -/
def validar_fecha (today : String) (s : String) : Bool × Option String :=
  if pyLower s = "hoy" then (true, some today)
  else
    match fechaFields s with
    | some (d, m, y) => if validCalendarDate d m y then (true, some s) else (false, none)
    | none => (false, none)

/-- The separator cleanup in `utils.validar_monto`:
`monto_str.replace('.', '').replace(',', '.')`. -/
def cleanMonto (s : String) : String :=
  ⟨(s.data.filter (fun c => c ≠ '.')).map (fun c => if c = ',' then '.' else c)⟩

/-- `utils.validar_monto`. -/
def validar_monto (s : String) : Bool × Option ℚ :=
  match pyFloatQ (cleanMonto s) with
  | none => (false, none)
  | some m => if m ≤ 0 then (false, none) else (true, some m)

/-- `utils.validar_numero_factura`: length between 1 and 20 characters. -/
def validar_numero_factura (numero : String) : Bool :=
  1 ≤ numero.length ∧ numero.length ≤ 20

/-- `utils.normalizar_texto` (the call sites use the default `max_length = 200`). -/
def normalizar_texto (texto : String) (maxLength : ℕ) : String :=
  if texto = "" ∨ pyStrip texto = "-" then "-"
  else strTakeN (pyStrip texto) maxLength

/-! ## config.py -/

/-- `Config.MEDIOS_PAGO` — the configured list of accepted payment methods. -/
def MEDIOS_PAGO : List String :=
  ["Efectivo", "Transferencia", "Tarjeta débito", "Tarjeta crédito", "Cheque", "Otro"]

/-- `Config.CATEGORIAS_GASTOS`. -/
def CATEGORIAS_GASTOS : List String :=
  ["Servicios públicos", "Nómina", "Materia prima", "Transporte", "Marketing",
   "Mantenimiento", "Otros"]

/-- The five payment-method options offered by the sale-entry keyboard
(`bot.py`, `venta_monto`), which coincide with `MEDIOS_CIERRE` of the
daily-close flow. -/
def MEDIOS_CIERRE : List String :=
  ["Efectivo", "Transferencia", "Tarjeta débito", "Tarjeta crédito", "Otro"]

/-! ## bot.py — conversation step results

A handler receives the text of the user message and the per-user session data
and returns the next conversation state (or `stop` for
`ConversationHandler.END`) together with the updated session data.  Handlers
that hand a record to the store additionally return that record. -/

inductive ConvResult (σ : Type) where
  | state (s : σ)
  | stop
  deriving DecidableEq, Repr

/-! ## bot.py — sale-entry flow (`/venta`) -/

/-- The sale-entry conversation states `VENTA_FECHA .. VENTA_CONFIRMAR`. -/
inductive VState where
  | fecha | factura | cliente | monto | pago | obs | confirmar
  deriving DecidableEq, Repr

/-- The `context.user_data` keys used by the sale-entry flow
(`venta_fecha`, `venta_factura`, `venta_cliente`, `venta_monto`,
`venta_pago`, `venta_obs`); `none` models an absent key. -/
structure VentaData where
  fecha : Option String
  factura : Option String
  cliente : Option String
  monto : Option ℚ
  pago : Option String
  obs : Option String
  deriving DecidableEq, Repr

def emptyVentaData : VentaData := ⟨none, none, none, none, none, none⟩

/-- `bot.venta_fecha`. -/
def venta_fecha (today text : String) (d : VentaData) : ConvResult VState × VentaData :=
  let p := validar_fecha today (pyStrip text)
  if p.1 = false then (.state .fecha, d)
  else (.state .factura, { d with fecha := p.2 })

/-- The omission tokens accepted by `bot.venta_factura`. -/
def omitirFactura : List String := ["-", "s/n", "S/N", "sin", "Sin"]

/-- `bot.venta_factura`. -/
def venta_factura (text : String) (d : VentaData) : ConvResult VState × VentaData :=
  let numero := pyStrip text
  if omitirFactura.contains numero then (.state .cliente, { d with factura := some "S/N" })
  else if validar_numero_factura numero = false then (.state .factura, d)
  else (.state .cliente, { d with factura := some numero })

/-- `bot.venta_cliente`. -/
def venta_cliente (text : String) (d : VentaData) : ConvResult VState × VentaData :=
  (.state .monto, { d with cliente := some (normalizar_texto text 200) })

/-- `bot.venta_monto`. -/
def venta_monto (text : String) (d : VentaData) : ConvResult VState × VentaData :=
  let p := validar_monto (pyStrip text)
  if p.1 = false then (.state .monto, d)
  else (.state .pago, { d with monto := p.2 })

/-- `bot.venta_pago`.  The handler stores the stripped message text as the
payment method without any validation and advances to the notes state. -/
def venta_pago (text : String) (d : VentaData) : ConvResult VState × VentaData :=
  (.state .obs, { d with pago := some (pyStrip text) })

/-- `bot.venta_observaciones`. -/
def venta_observaciones (text : String) (d : VentaData) : ConvResult VState × VentaData :=
  (.state .confirmar, { d with obs := some (normalizar_texto text 200) })

/-- The affirmative responses accepted by the confirmation handlers. -/
def yesRespuestas : List String := ["sí", "si", "yes", "s"]

/-- The sale record handed to `sheets_manager.registrar_venta`. -/
structure VentaRecord where
  fecha : String
  numero_factura : String
  cliente : String
  monto : ℚ
  medio_pago : String
  observaciones : String
  deriving DecidableEq, Repr

/-- The record `bot.venta_confirmar` builds from the session data.  The source
indexes `context.user_data` without checks; in a completed flow all six keys
are present and this returns `some`. -/
def ventaRecordOf (d : VentaData) : Option VentaRecord :=
  match d.fecha, d.factura, d.cliente, d.monto, d.pago, d.obs with
  | some f, some nf, some c, some m, some mp, some o => some ⟨f, nf, c, m, mp, o⟩
  | _, _, _, _, _, _ => none

/-- `bot.venta_confirmar`: any response outside `yesRespuestas` cancels; on a
yes the record is handed to the store.  Either way the conversation ends and
the session data is cleared. -/
def venta_confirmar (text : String) (d : VentaData) :
    ConvResult VState × VentaData × Option VentaRecord :=
  let respuesta := pyLower (pyStrip text)
  if yesRespuestas.contains respuesta = false then (.stop, emptyVentaData, none)
  else (.stop, emptyVentaData, ventaRecordOf d)

/-- A point of the sale-entry conversation: current state, session data and
the record handed to the store so far (if any). -/
structure VentaRun where
  result : ConvResult VState
  data : VentaData
  persisted : Option VentaRecord
  deriving DecidableEq, Repr

/-- Dispatch one user message to the handler of the current state, as the
`conv_venta` `ConversationHandler` does. -/
def ventaStep (today text : String) (r : VentaRun) : VentaRun :=
  match r.result with
  | .stop => r
  | .state s =>
    match s with
    | .fecha => let p := venta_fecha today text r.data; ⟨p.1, p.2, r.persisted⟩
    | .factura => let p := venta_factura text r.data; ⟨p.1, p.2, r.persisted⟩
    | .cliente => let p := venta_cliente text r.data; ⟨p.1, p.2, r.persisted⟩
    | .monto => let p := venta_monto text r.data; ⟨p.1, p.2, r.persisted⟩
    | .pago => let p := venta_pago text r.data; ⟨p.1, p.2, r.persisted⟩
    | .obs => let p := venta_observaciones text r.data; ⟨p.1, p.2, r.persisted⟩
    | .confirmar => let p := venta_confirmar text r.data; ⟨p.1, p.2.1, p.2.2⟩

/-- Run the sale-entry flow from its entry point on a list of user messages. -/
def runVenta (today : String) (inputs : List String) : VentaRun :=
  inputs.foldl (fun r text => ventaStep today text r) ⟨.state .fecha, emptyVentaData, none⟩

/-! ## bot.py — daily-close flow (`/cierreday`) -/

/-- The daily-close conversation states `CDAY_FECHA .. CDAY_CONFIRMAR`. -/
inductive CState where
  | fecha | efectivo | transferencia | tarjetaDeb | tarjetaCred | otro | obs | confirmar
  deriving DecidableEq, Repr

/-- Python dict assignment `d[k] = v` on an insertion-ordered dictionary. -/
def setKey : List (String × ℚ) → String → ℚ → List (String × ℚ)
  | [], k, v => [(k, v)]
  | p :: rest, k, v => if p.1 = k then (k, v) :: rest else p :: setKey rest k v

/-- Python `d.get(k, dflt)`. -/
def getKeyD (l : List (String × ℚ)) (k : String) (dflt : ℚ) : ℚ :=
  match l.find? (fun p => p.1 = k) with
  | some p => p.2
  | none => dflt

/-- Python `sum(d.values())`. -/
def sumValues (l : List (String × ℚ)) : ℚ := (l.map (fun p => p.2)).sum

/-- The `context.user_data` keys of the daily-close flow: `cday_fecha`,
`cday_montos` (an insertion-ordered dict) and `cday_obs`. -/
structure CDayData where
  fecha : Option String
  montos : List (String × ℚ)
  obs : Option String
  deriving DecidableEq, Repr

def emptyCDayData : CDayData := ⟨none, [], none⟩

/-- `bot.cierreday_fecha`: on a valid date stores it and resets
`cday_montos` to the empty dict. -/
def cierreday_fecha (today text : String) (d : CDayData) : ConvResult CState × CDayData :=
  let p := validar_fecha today (pyStrip text)
  if p.1 = false then (.state .fecha, d)
  else (.state .efectivo, { d with fecha := p.2, montos := [] })

/-- Common body of the five bucket handlers `cierreday_efectivo` ..
`cierreday_otro`: the literal `0` stores zero, otherwise the amount must pass
`validar_monto`, else the same state re-prompts. -/
def cierreBucket (key : String) (stay next : CState) (text : String) (d : CDayData) :
    ConvResult CState × CDayData :=
  let texto := pyStrip text
  if texto = "0" then (.state next, { d with montos := setKey d.montos key 0 })
  else
    match validar_monto texto with
    | (true, some m) => (.state next, { d with montos := setKey d.montos key m })
    | _ => (.state stay, d)

def cierreday_efectivo : String → CDayData → ConvResult CState × CDayData :=
  cierreBucket "Efectivo" .efectivo .transferencia

def cierreday_transferencia : String → CDayData → ConvResult CState × CDayData :=
  cierreBucket "Transferencia" .transferencia .tarjetaDeb

def cierreday_tarjeta_deb : String → CDayData → ConvResult CState × CDayData :=
  cierreBucket "Tarjeta débito" .tarjetaDeb .tarjetaCred

def cierreday_tarjeta_cred : String → CDayData → ConvResult CState × CDayData :=
  cierreBucket "Tarjeta crédito" .tarjetaCred .otro

def cierreday_otro : String → CDayData → ConvResult CState × CDayData :=
  cierreBucket "Otro" .otro .obs

/-- `bot.cierreday_obs`: stores the notes and shows the confirmation message.
The message is modelled by its structured content: the list of breakdown lines
(one per bucket with `monto > 0`, in dict order) and the displayed total
`sum(montos.values())`. -/
def cierreday_obs (text : String) (d : CDayData) :
    ConvResult CState × CDayData × (List (String × ℚ) × ℚ) :=
  let o := normalizar_texto text 200
  (.state .confirmar, { d with obs := some o },
   (d.montos.filter (fun p => 0 < p.2), sumValues d.montos))

/-- The daily-close record handed to `sheets_manager.registrar_cierre_diario`. -/
structure CierreRecord where
  fecha : String
  efectivo : ℚ
  transferencia : ℚ
  tarjeta_debito : ℚ
  tarjeta_credito : ℚ
  otro : ℚ
  total : ℚ
  observaciones : String
  deriving DecidableEq, Repr

/-- The record `bot.cierreday_confirmar` builds: the five buckets via
`montos.get(key, 0)` and the total `sum(montos.values())`.  The unchecked
`user_data` indexing of the source is modelled as in `ventaRecordOf`. -/
def cierreRecordOf (d : CDayData) : Option CierreRecord :=
  match d.fecha, d.obs with
  | some f, some o =>
    some ⟨f, getKeyD d.montos "Efectivo" 0, getKeyD d.montos "Transferencia" 0,
          getKeyD d.montos "Tarjeta débito" 0, getKeyD d.montos "Tarjeta crédito" 0,
          getKeyD d.montos "Otro" 0, sumValues d.montos, o⟩
  | _, _ => none

/-- `bot.cierreday_confirmar`. -/
def cierreday_confirmar (text : String) (d : CDayData) :
    ConvResult CState × CDayData × Option CierreRecord :=
  if yesRespuestas.contains (pyLower (pyStrip text)) = false then (.stop, emptyCDayData, none)
  else (.stop, emptyCDayData, cierreRecordOf d)

/-- A point of the daily-close conversation: current state, session data, the
last shown confirmation content, and the record handed to the store (if any). -/
structure CierreRun where
  result : ConvResult CState
  data : CDayData
  shown : Option (List (String × ℚ) × ℚ)
  persisted : Option CierreRecord
  deriving DecidableEq, Repr

/-- Dispatch one user message to the handler of the current state, as the
`conv_cierreday` `ConversationHandler` does. -/
def cierreStep (today text : String) (r : CierreRun) : CierreRun :=
  match r.result with
  | .stop => r
  | .state s =>
    match s with
    | .fecha => let p := cierreday_fecha today text r.data; ⟨p.1, p.2, r.shown, r.persisted⟩
    | .efectivo => let p := cierreday_efectivo text r.data; ⟨p.1, p.2, r.shown, r.persisted⟩
    | .transferencia =>
      let p := cierreday_transferencia text r.data; ⟨p.1, p.2, r.shown, r.persisted⟩
    | .tarjetaDeb => let p := cierreday_tarjeta_deb text r.data; ⟨p.1, p.2, r.shown, r.persisted⟩
    | .tarjetaCred => let p := cierreday_tarjeta_cred text r.data; ⟨p.1, p.2, r.shown, r.persisted⟩
    | .otro => let p := cierreday_otro text r.data; ⟨p.1, p.2, r.shown, r.persisted⟩
    | .obs => let p := cierreday_obs text r.data; ⟨p.1, p.2.1, some p.2.2, r.persisted⟩
    | .confirmar => let p := cierreday_confirmar text r.data; ⟨p.1, p.2.1, r.shown, p.2.2⟩

def initialCierreRun : CierreRun := ⟨.state .fecha, emptyCDayData, none, none⟩

/-- Run the daily-close flow from its entry point on a list of user messages. -/
def runCierre (today : String) (inputs : List String) : CierreRun :=
  inputs.foldl (fun r text => cierreStep today text r) initialCierreRun

/-! ## google_sheets.py — report aggregation

`get_all_records()` on the remote sheet is modelled by an `Except` value:
`.error` when the read raises, `.ok rows` otherwise.  A row carries the
`Fecha` and `Monto` fields that `calcular_totales` uses; `Monto` is numeric in
the store. -/

structure SheetRow where
  fecha : String
  monto : ℚ
  deriving DecidableEq, Repr

/-- Calendar key `(year, month, day)` of a stored `DD/MM/YYYY` date, `none`
where `datetime.strptime` raises. -/
def fechaKey (s : String) : Option (ℕ × ℕ × ℕ) :=
  match fechaFields s with
  | some (d, m, y) => if validCalendarDate d m y then some (y, m, d) else none
  | none => none

/-- Lexicographic order on `(year, month, day)` keys, i.e. date order. -/
def dateLt (a b : ℕ × ℕ × ℕ) : Bool :=
  a.1 < b.1 ∨ (a.1 = b.1 ∧ (a.2.1 < b.2.1 ∨ (a.2.1 = b.2.1 ∧ a.2.2 < b.2.2)))

/-- `GoogleSheetsManager._fecha_en_rango`: rows whose date (or whose range
bound) fails to parse are included rather than silenced. -/
def fechaEnRango (fechaStr : String) (inicio fin : Option String) : Bool :=
  if inicio = none ∧ fin = none then true
  else
    match fechaKey fechaStr with
    | none => true
    | some k =>
      let failInicio :=
        match inicio with
        | none => false
        | some i =>
          match fechaKey i with
          | none => true
          | some ki => dateLt k ki
      if failInicio then
        match inicio with
        | some i => if fechaKey i = none then true else false
        | none => false
      else
        match fin with
        | none => true
        | some f =>
          match fechaKey f with
          | none => true
          | some kf => !dateLt kf k

/-- `GoogleSheetsManager.obtener_ventas`: a failed read yields the empty
list; otherwise the rows, date-filtered when a range is given. -/
def obtener_ventas (read : Except String (List SheetRow)) (inicio fin : Option String) :
    List SheetRow :=
  match read with
  | .error _ => []
  | .ok rows =>
    if inicio = none ∧ fin = none then rows
    else rows.filter (fun r => fechaEnRango r.fecha inicio fin)

/-- `GoogleSheetsManager.obtener_gastos` (same body over the expenses sheet). -/
def obtener_gastos (read : Except String (List SheetRow)) (inicio fin : Option String) :
    List SheetRow :=
  match read with
  | .error _ => []
  | .ok rows =>
    if inicio = none ∧ fin = none then rows
    else rows.filter (fun r => fechaEnRango r.fecha inicio fin)

/-- The totals record returned by `GoogleSheetsManager.calcular_totales`. -/
structure Totales where
  total_ventas : ℚ
  total_gastos : ℚ
  utilidad : ℚ
  margen : ℚ
  num_ventas : ℕ
  num_gastos : ℕ
  deriving DecidableEq, Repr

/-- The all-zero record of the `except` branch of `calcular_totales`. -/
def zeroTotales : Totales := ⟨0, 0, 0, 0, 0, 0⟩

/-- `GoogleSheetsManager.calcular_totales`.  With numeric `Monto` fields the
aggregation body is total, so the all-zero `except` branch of the source is
unreachable here; the read failures are already absorbed by
`obtener_ventas`/`obtener_gastos`. -/
def calcular_totales (ventasRead gastosRead : Except String (List SheetRow))
    (inicio fin : Option String) : Totales :=
  let ventas := obtener_ventas ventasRead inicio fin
  let gastos := obtener_gastos gastosRead inicio fin
  let total_ventas := (ventas.map (fun v => v.monto)).sum
  let total_gastos := (gastos.map (fun g => g.monto)).sum
  let utilidad := total_ventas - total_gastos
  ⟨total_ventas, total_gastos, utilidad,
   if 0 < total_ventas then utilidad / total_ventas * 100 else 0,
   ventas.length, gastos.length⟩

/-! ## ml_analisis.py — analytics over the transaction table

A row of the loaded table: the sheet columns used by the analytics, with the
amount (`Importe`) as an exact rational.  The calendar columns derived from
`Fecha` feed the regressor only, whose floating-point fit is opaque here; the
date itself is modelled by an ordinal day number, of which only the order is
used (`min`/`max` bounds). -/

structure Transaccion where
  categoria : String
  fecha : ℕ
  descripcion : String
  importe : ℚ
  deriving DecidableEq, Repr

/-- The `Tipo` column: `Ingreso` for a positive amount, else `Gasto`. -/
def tipoOf (t : Transaccion) : String := if 0 < t.importe then "Ingreso" else "Gasto"

/-- Arithmetic mean (pandas `Series.mean`). -/
def mean (l : List ℚ) : ℚ := l.sum / l.length

/-- The summary dict built by `obtener_resumen_general`. -/
structure Resumen where
  total_ingresos : ℚ
  total_gastos : ℚ
  utilidad_neta : ℚ
  margen_utilidad : ℚ
  num_transacciones : ℕ
  num_ingresos : ℕ
  num_gastos : ℕ
  ticket_promedio_venta : ℚ
  gasto_promedio : ℚ
  fecha_inicio : ℕ
  fecha_fin : ℕ
  deriving DecidableEq, Repr

/-- Result of `obtener_resumen_general`: either the `{"error": ...}` dict or
the summary dict. -/
inductive ResumenResult where
  | error (msg : String)
  | ok (r : Resumen)
  deriving DecidableEq, Repr

def ResumenResult.isError : ResumenResult → Bool
  | .error _ => true
  | .ok _ => false

/-- `AnalizadorFinancieroML.obtener_resumen_general`. -/
def obtener_resumen_general (txs : List Transaccion) : ResumenResult :=
  if txs.length = 0 then .error "No hay datos disponibles"
  else
    let pos := txs.filter (fun t => 0 < t.importe)
    let neg := txs.filter (fun t => t.importe < 0)
    let ingresos := (pos.map (fun t => t.importe)).sum
    let gastos := |(neg.map (fun t => t.importe)).sum|
    let utilidad := ingresos - gastos
    .ok ⟨ingresos, gastos, utilidad,
         if 0 < ingresos then utilidad / ingresos * 100 else 0,
         txs.length, pos.length, neg.length,
         if 0 < pos.length then mean (pos.map (fun t => t.importe)) else 0,
         if 0 < neg.length then |mean (neg.map (fun t => t.importe))| else 0,
         ((txs.map (fun t => t.fecha)).min?).getD 0,
         ((txs.map (fun t => t.fecha)).max?).getD 0⟩

/-- Sample variance (pandas `Series.std` squares to this; `ddof = 1`).  For a
single row pandas yields `NaN` and every `NaN` comparison is false, which
coincides with this rational model, where the division by zero is zero. -/
def varMuestral (l : List ℚ) : ℚ :=
  (l.map (fun v => (v - mean l) ^ 2)).sum / ((l.length - 1 : ℕ) : ℚ)

/-- One iteration of the per-type loop of `detectar_anomalias`, returning each
flagged row paired with its attached deviation magnitude.  The source flags
`v > media + umbral*std ∨ v < media - umbral*std` with `std = sqrt varS`;
over ℚ this is expressed by the equivalent square-free form
`(v - media)^2 > umbral^2 * varS` (equivalent for `umbral ≥ 0`), and the
attached deviation `|(v - media)/std|` by its square, which orders rows
identically. -/
def anomaliasDeTipo (umbral : ℚ) (txs : List Transaccion) (tipo : String) :
    List (Transaccion × ℚ) :=
  let dfTipo : List Transaccion := txs.filter (fun t => tipoOf t == tipo)
  if dfTipo.length = 0 then []
  else
    let valores : List ℚ := dfTipo.map (fun t => |t.importe|)
    let media : ℚ := mean valores
    let varS : ℚ := varMuestral valores
    let thr : ℚ := umbral ^ 2 * varS
    dfTipo.filterMap (fun t =>
      let dev : ℚ := (|t.importe| - media) ^ 2
      (if thr < dev then some (t, dev / varS) else none : Option (Transaccion × ℚ)))

/-- `AnalizadorFinancieroML.detectar_anomalias` (default `umbral_std = 2.5`):
flagged rows of both types merged, sorted descending by deviation. -/
def detectar_anomalias (umbral : ℚ) (txs : List Transaccion) : List Transaccion :=
  let anom := anomaliasDeTipo umbral txs "Ingreso" ++ anomaliasDeTipo umbral txs "Gasto"
  (anom.mergeSort (fun a b => b.2 ≤ a.2)).map (fun p => p.1)

/-- Result of `entrenar_modelo_ventas`: either the `{"error": ...}` dict or
the metrics dict.  The floating-point outputs of the fit (`mae`, `r2`, the
feature importances) are opaque; the metrics variant records the training and
test row counts and the feature columns, which the claims concern. -/
inductive EntrenarResult where
  | error (msg : String)
  | metricas (numTrain numTest : ℕ) (features : List String)
  deriving DecidableEq, Repr

def EntrenarResult.isError : EntrenarResult → Bool
  | .error _ => true
  | .metricas _ _ _ => false

/-- The scikit-learn import succeeds in the deployed environment. -/
def ML_AVAILABLE : Bool := true

/-- The five calendar-derived feature columns of the sales model. -/
def featuresVentas : List String := ["Año", "Mes", "Día", "DiaSemana", "Trimestre"]

/-- Test rows of `train_test_split(test_size=0.2)`: `ceil(n / 5)`. -/
def nTestSplit (n : ℕ) : ℕ := (n + 4) / 5

/-- `AnalizadorFinancieroML.entrenar_modelo_ventas`. -/
def entrenar_modelo_ventas (txs : List Transaccion) : EntrenarResult :=
  if ML_AVAILABLE = false then .error "Scikit-learn no está instalado"
  else
    let dfVentas := txs.filter (fun t => 0 < t.importe)
    if dfVentas.length < 20 then
      .error "No hay suficientes datos para entrenar (mínimo 20 ventas)"
    else
      .metricas (dfVentas.length - nTestSplit dfVentas.length) (nTestSplit dfVentas.length)
        featuresVentas

/-! ## Specification-side definitions used for refinement claims -/

/-- The text normalizer as the specification words it: trims surrounding
whitespace; an empty input or the literal `-` returns `-`; otherwise the
trimmed input truncated to `maxLength` characters. -/
def normalize_text_spec (texto : String) (maxLength : ℕ) : String :=
  if texto = "" ∨ texto = "-" then "-"
  else strTakeN (pyStrip texto) maxLength

/-- Split a character list at its first comma: `(before, none)` when there is
no comma, `(before, some after)` for exactly one comma, `none` for more than
one (the cleanup of `validar_monto` would turn those into several dots and
the parse would fail). -/
def splitComma (l : List Char) : Option (List Char × Option (List Char)) :=
  let ip := l.takeWhile (fun c => c ≠ ',')
  let r := l.dropWhile (fun c => c ≠ ',')
  match r with
  | [] => some (ip, none)
  | _ :: fp => if fp.contains ',' then none else some (ip, some fp)

/-- A positive numeric string under the separator convention chosen by
`validar_monto` (`.` thousands separators, `,` decimal comma): after
discarding the dots, a run of digits with at most one comma, at least one
digit, and at least one nonzero digit. -/
def isPosNumericStr (s : String) : Bool :=
  let l := s.data.filter (fun c => c ≠ '.')
  match splitComma l with
  | none => false
  | some (ip, none) => ip ≠ [] ∧ ip.all isDigitChar ∧ ip.any (fun c => c ≠ '0')
  | some (ip, some fp) =>
    ip.all isDigitChar ∧ fp.all isDigitChar ∧ (ip ≠ [] ∨ fp ≠ []) ∧
    (ip ++ fp).any (fun c => c ≠ '0')

/-- The five payment-bucket keys in flow order paired with the bucket fields
of a persisted daily-close record. -/
def cierreBuckets (datos : CierreRecord) : List (String × ℚ) :=
  [("Efectivo", datos.efectivo), ("Transferencia", datos.transferencia),
   ("Tarjeta débito", datos.tarjeta_debito), ("Tarjeta crédito", datos.tarjeta_credito),
   ("Otro", datos.otro)]

/-- Shape of the `cday_montos` dict at each state of the daily-close flow:
exactly the buckets already prompted for, in prompt order. -/
def montosShape (montos : List (String × ℚ)) : CState → Prop
  | .fecha => True
  | .efectivo => montos = []
  | .transferencia => ∃ v1, montos = [("Efectivo", v1)]
  | .tarjetaDeb => ∃ v1 v2, montos = [("Efectivo", v1), ("Transferencia", v2)]
  | .tarjetaCred => ∃ v1 v2 v3,
      montos = [("Efectivo", v1), ("Transferencia", v2), ("Tarjeta débito", v3)]
  | .otro => ∃ v1 v2 v3 v4,
      montos = [("Efectivo", v1), ("Transferencia", v2), ("Tarjeta débito", v3),
                ("Tarjeta crédito", v4)]
  | .obs => ∃ v1 v2 v3 v4 v5,
      montos = [("Efectivo", v1), ("Transferencia", v2), ("Tarjeta débito", v3),
                ("Tarjeta crédito", v4), ("Otro", v5)]
  | .confirmar => ∃ v1 v2 v3 v4 v5,
      montos = [("Efectivo", v1), ("Transferencia", v2), ("Tarjeta débito", v3),
                ("Tarjeta crédito", v4), ("Otro", v5)]

/-- Invariant of the daily-close conversation, preserved by every step: while
a state is active the dict has that state's shape and nothing is persisted;
at the confirmation state the shown breakdown is the positive buckets of the
dict with the dict total; a persisted record totals its own five buckets and
was shown as exactly its positive buckets. -/
def CierreInv (r : CierreRun) : Prop :=
  (∀ s, r.result = ConvResult.state s →
    montosShape r.data.montos s ∧ r.persisted = none ∧
    (s = CState.confirmar →
      r.shown = some (r.data.montos.filter (fun p => 0 < p.2), sumValues r.data.montos))) ∧
  (∀ datos, r.persisted = some datos →
    datos.total = datos.efectivo + datos.transferencia + datos.tarjeta_debito +
      datos.tarjeta_credito + datos.otro ∧
    r.shown = some ((cierreBuckets datos).filter (fun p => 0 < p.2), datos.total))

/-! # Theorems -/

/-! ## Supporting lemmas on digit lists and the float parser -/

theorem natOfDigits_foldl (l : List Char) (a : ℕ) :
    l.foldl (fun a c => 10 * a + (c.toNat - 48)) a = a * 10 ^ l.length + natOfDigits l := by
  induction l generalizing a with
  | nil => simp [natOfDigits]
  | cons c r ih =>
    show List.foldl _ (10 * a + (c.toNat - 48)) r = _
    rw [ih]
    have h2 : natOfDigits (c :: r) = (10 * 0 + (c.toNat - 48)) * 10 ^ r.length + natOfDigits r := by
      show List.foldl _ (10 * 0 + (c.toNat - 48)) r = _
      rw [ih]
    rw [h2, List.length_cons]
    ring

theorem natOfDigits_cons (c : Char) (r : List Char) :
    natOfDigits (c :: r) = (c.toNat - 48) * 10 ^ r.length + natOfDigits r := by
  show List.foldl _ (10 * 0 + (c.toNat - 48)) r = _
  rw [natOfDigits_foldl]
  ring

theorem digit_toNat_ge (c : Char) (hd : isDigitChar c = true) (hnz : c ≠ '0') :
    49 ≤ c.toNat := by
  have h1 : 48 ≤ c.toNat ∧ c.toNat ≤ 57 := by simpa [isDigitChar] using hd
  rcases Nat.lt_or_ge c.toNat 49 with h | h
  · exfalso
    apply hnz
    have h48 : c.toNat = 48 := by omega
    exact Char.ext (UInt32.ext (by simpa using h48))
  · exact h

theorem natOfDigits_pos (l : List Char) (hd : l.all isDigitChar = true)
    (hnz : l.any (fun c => c ≠ '0') = true) : 0 < natOfDigits l := by
  induction l with
  | nil => simp at hnz
  | cons c r ih =>
    rw [natOfDigits_cons]
    simp only [List.all_cons, Bool.and_eq_true] at hd
    simp only [List.any_cons, Bool.or_eq_true] at hnz
    rcases hnz with h | h
    · have h49 : 49 ≤ c.toNat := digit_toNat_ge c hd.1 (by simpa using h)
      have hpow : 0 < 10 ^ r.length := Nat.pos_pow_of_pos _ (by omega)
      have : 0 < (c.toNat - 48) * 10 ^ r.length := Nat.mul_pos (by omega) hpow
      omega
    · have := ih hd.2 h
      omega

theorem takeWhile_append_stop (p : Char → Bool) (ip rest : List Char)
    (hip : ∀ c ∈ ip, p c = true) (hrest : ∀ c t, rest = c :: t → p c = false) :
    (ip ++ rest).takeWhile p = ip ∧ (ip ++ rest).dropWhile p = rest := by
  induction ip with
  | nil =>
    cases rest with
    | nil => simp
    | cons c t =>
      have := hrest c t rfl
      simp [List.takeWhile, List.dropWhile, this]
  | cons a ip ih =>
    have ha : p a = true := hip a (by simp)
    have := ih (fun c hc => hip c (by simp [hc]))
    simp [List.takeWhile, List.dropWhile, ha, this.1, this.2]

theorem splitAtExp_no_e (l : List Char) (h : ∀ c ∈ l, c ≠ 'e' ∧ c ≠ 'E') :
    splitAtExp l = (l, none) := by
  induction l with
  | nil => rfl
  | cons c r ih =>
    have hc := h c (by simp)
    have hr := ih (fun x hx => h x (by simp [hx]))
    unfold splitAtExp
    rw [if_neg (by simp [hc.1, hc.2])]
    rw [hr]

theorem dropWhile_head_not (p : Char → Bool) (l : List Char) (c : Char) (t : List Char)
    (h : l.dropWhile p = c :: t) : p c = false := by
  induction l with
  | nil => simp at h
  | cons a r ih =>
    rw [List.dropWhile_cons] at h
    by_cases ha : p a = true
    · rw [if_pos ha] at h
      exact ih h
    · rw [if_neg ha] at h
      cases h
      exact Bool.not_eq_true _ |>.mp ha

theorem mapToDot_digits (l : List Char) (hd : l.all isDigitChar = true) :
    l.map (fun c => if c = ',' then '.' else c) = l := by
  have : ∀ c ∈ l, (fun c => if c = ',' then '.' else c) c = id c := by
    intro c hc
    have hdc : isDigitChar c = true := by
      rw [List.all_eq_true] at hd
      exact hd c hc
    have h1 : 48 ≤ c.toNat ∧ c.toNat ≤ 57 := by simpa [isDigitChar] using hdc
    have hcc : c ≠ ',' := by
      intro hx
      subst hx
      simp at h1
    simp [hcc]
  rw [List.map_congr_left this, List.map_id]

theorem digits_not_special (l : List Char) (hd : l.all isDigitChar = true) :
    ∀ c ∈ l, c ≠ 'e' ∧ c ≠ 'E' := by
  intro c hc
  rw [List.all_eq_true] at hd
  have h1 : 48 ≤ c.toNat ∧ c.toNat ≤ 57 := by simpa [isDigitChar] using hd c hc
  constructor <;> · intro hx; subst hx; simp at h1

theorem splitComma_none_inv (l ip : List Char) (h : splitComma l = some (ip, none)) :
    l = ip := by
  simp only [splitComma] at h
  rcases hd : l.dropWhile (fun c => decide (c ≠ ',')) with _ | ⟨c, t⟩ <;> rw [hd] at h
  · simp only [Option.some.injEq, Prod.mk.injEq] at h
    conv_lhs => rw [← List.takeWhile_append_dropWhile (p := fun c => decide (c ≠ ',')) (l := l)]
    rw [hd, List.append_nil, h.1]
  · by_cases hc : t.contains ','
    · simp [hc] at h
    · simp [hc] at h

theorem splitComma_some_inv (l ip fp : List Char) (h : splitComma l = some (ip, some fp)) :
    l = ip ++ ',' :: fp := by
  simp only [splitComma] at h
  rcases hd : l.dropWhile (fun c => decide (c ≠ ',')) with _ | ⟨c, t⟩ <;> rw [hd] at h
  · simp at h
  · simp at h
    have hcomma : c = ',' := by
      simpa using dropWhile_head_not _ l c t hd
    conv_lhs => rw [← List.takeWhile_append_dropWhile (p := fun c => decide (c ≠ ',')) (l := l)]
    rw [hd, hcomma, h.2.2]
    simp only [decide_not]
    rw [h.2.1]

theorem signSplit_of_not_sign (l : List Char) (h : ∀ c t, l = c :: t → c ≠ '+' ∧ c ≠ '-') :
    signSplit l = (1, l) := by
  cases l with
  | nil => rfl
  | cons c t =>
    have hc := h c t rfl
    show (if c = '+' then ((1 : ℚ), t) else if c = '-' then (-1, t) else (1, c :: t)) = (1, c :: t)
    rw [if_neg hc.1, if_neg hc.2]

theorem digit_head_not_sign (c : Char) (hc : isDigitChar c = true) : c ≠ '+' ∧ c ≠ '-' := by
  have h1 : 48 ≤ c.toNat ∧ c.toNat ≤ 57 := by simpa [isDigitChar] using hc
  constructor <;> · intro hx; subst hx; simp at h1

theorem pyFloatQ_of_no_exp (l : List Char) (hne : ∀ c ∈ l, c ≠ 'e' ∧ c ≠ 'E') :
    pyFloatQ ⟨l⟩ = mantissaOf l := by
  unfold pyFloatQ
  rw [show (⟨l⟩ : String).data = l from rfl, splitAtExp_no_e l hne]
  rcases hm : mantissaOf l with _ | q <;> simp [hm]

theorem mantissaOf_digits_only (ip : List Char) (hd : ip.all isDigitChar = true)
    (hne : ip ≠ []) :
    mantissaOf ip = some ((1 : ℚ) * natOfDigits ip) := by
  have hsign : signSplit ip = (1, ip) := by
    apply signSplit_of_not_sign
    intro c t hct
    apply digit_head_not_sign
    rw [List.all_eq_true] at hd
    exact hd c (by rw [hct]; simp)
  have htw := takeWhile_append_stop isDigitChar ip []
    (by rw [List.all_eq_true] at hd; exact hd) (by intro c t hct; cases hct)
  rw [List.append_nil] at htw
  unfold mantissaOf
  rw [hsign]
  simp only [htw.1, htw.2]
  rw [if_neg hne]

theorem mantissaOf_digits_dot (ip fp : List Char) (hip : ip.all isDigitChar = true)
    (hfp : fp.all isDigitChar = true) (hne : ¬(ip = [] ∧ fp = [])) :
    mantissaOf (ip ++ '.' :: fp) =
      some ((1 : ℚ) * ((natOfDigits ip : ℚ) + (natOfDigits fp : ℚ) / 10 ^ fp.length)) := by
  have hsign : signSplit (ip ++ '.' :: fp) = (1, ip ++ '.' :: fp) := by
    apply signSplit_of_not_sign
    intro c t hct
    cases ip with
    | nil =>
      simp only [List.nil_append, List.cons.injEq] at hct
      rw [← hct.1]
      decide
    | cons a r =>
      simp only [List.cons_append, List.cons.injEq] at hct
      apply digit_head_not_sign
      rw [List.all_eq_true] at hip
      rw [← hct.1]
      exact hip a (by simp)
  have htw := takeWhile_append_stop isDigitChar ip ('.' :: fp)
    (by rw [List.all_eq_true] at hip; exact hip)
    (by intro c t hct; injection hct with h1 _; rw [← h1]; decide)
  have htw2 := takeWhile_append_stop isDigitChar fp []
    (by rw [List.all_eq_true] at hfp; exact hfp) (by intro c t hct; cases hct)
  rw [List.append_nil] at htw2
  unfold mantissaOf
  rw [hsign]
  simp only [htw.1, htw.2, htw2.1, htw2.2]
  simp [hne]

theorem no_special_append_dot (ip fp : List Char) (hip : ip.all isDigitChar = true)
    (hfp : fp.all isDigitChar = true) :
    ∀ c ∈ ip ++ '.' :: fp, c ≠ 'e' ∧ c ≠ 'E' := by
  intro c hc
  rw [List.mem_append] at hc
  rcases hc with hc | hc
  · exact digits_not_special ip hip c hc
  · rw [List.mem_cons] at hc
    rcases hc with hc | hc
    · subst hc
      decide
    · exact digits_not_special fp hfp c hc

/-- Claim C5: for every positive numeric string under the chosen separator
convention (`.` thousands separators, `,` decimal comma — the convention of
`utils.validar_monto`), the validator returns `(true, v)` with `v > 0`; for
every string whose cleaned form parses to zero or a negative value, and for
every non-numeric string (the cleaned form does not parse), it returns
`(false, None)`; the function is total, so no exception escapes. -/
theorem C5_validar_monto (s : String) :
    (isPosNumericStr s = true → ∃ v, validar_monto s = (true, some v) ∧ 0 < v) ∧
    (∀ v, pyFloatQ (cleanMonto s) = some v → v ≤ 0 → validar_monto s = (false, none)) ∧
    (pyFloatQ (cleanMonto s) = none → validar_monto s = (false, none)) := by
  refine ⟨?_, ?_, ?_⟩
  · intro h
    simp only [isPosNumericStr] at h
    rcases hsc : splitComma (s.data.filter (fun c => c ≠ '.')) with _ | ⟨ip, ofp⟩
    · rw [hsc] at h
      simp at h
    · rcases ofp with _ | fp
      · rw [hsc] at h
        simp only [decide_eq_true_eq, Bool.decide_and, Bool.and_eq_true,
          decide_eq_true_eq] at h
        obtain ⟨hne, hd, hnz⟩ := h
        have hip := splitComma_none_inv _ _ hsc
        have hclean : cleanMonto s = ⟨ip⟩ := by
          unfold cleanMonto
          rw [hip, mapToDot_digits ip hd]
        have hpf : pyFloatQ (cleanMonto s) = some ((1 : ℚ) * natOfDigits ip) := by
          rw [hclean, pyFloatQ_of_no_exp ip (digits_not_special ip hd),
            mantissaOf_digits_only ip hd hne]
        have hpos : (0 : ℚ) < (1 : ℚ) * natOfDigits ip := by
          rw [one_mul]
          exact_mod_cast natOfDigits_pos ip hd hnz
        refine ⟨(1 : ℚ) * natOfDigits ip, ?_, hpos⟩
        simp only [validar_monto, hpf]
        rw [if_neg (not_le.mpr hpos)]
      · rw [hsc] at h
        simp only [Bool.decide_and, Bool.and_eq_true, decide_eq_true_eq] at h
        obtain ⟨hip, hfp, hor, hnz⟩ := h
        have hl := splitComma_some_inv _ _ _ hsc
        have hclean : cleanMonto s = ⟨ip ++ '.' :: fp⟩ := by
          unfold cleanMonto
          rw [hl, List.map_append, mapToDot_digits ip hip, List.map_cons,
            mapToDot_digits fp hfp]
          rfl
        have hnand : ¬(ip = [] ∧ fp = []) := by
          rcases hor with h | h
          · exact fun hx => h hx.1
          · exact fun hx => h hx.2
        have hpf : pyFloatQ (cleanMonto s) =
            some ((1 : ℚ) * ((natOfDigits ip : ℚ) + (natOfDigits fp : ℚ) / 10 ^ fp.length)) := by
          rw [hclean, pyFloatQ_of_no_exp _ (no_special_append_dot ip fp hip hfp),
            mantissaOf_digits_dot ip fp hip hfp hnand]
        have hpos : (0 : ℚ) <
            (1 : ℚ) * ((natOfDigits ip : ℚ) + (natOfDigits fp : ℚ) / 10 ^ fp.length) := by
          rw [one_mul]
          have hpow : (0 : ℚ) < 10 ^ fp.length := by positivity
          rw [List.any_append, Bool.or_eq_true] at hnz
          rcases hnz with h | h
          · have h1 : 0 < natOfDigits ip := natOfDigits_pos ip hip h
            have h1q : (1 : ℚ) ≤ (natOfDigits ip : ℚ) := by exact_mod_cast h1
            have h2 : (0 : ℚ) ≤ (natOfDigits fp : ℚ) / 10 ^ fp.length := by positivity
            linarith
          · have h1 : 0 < natOfDigits fp := natOfDigits_pos fp hfp h
            have h1q : (0 : ℚ) < (natOfDigits fp : ℚ) := by exact_mod_cast h1
            have h2 : (0 : ℚ) < (natOfDigits fp : ℚ) / 10 ^ fp.length := by positivity
            have h3 : (0 : ℚ) ≤ (natOfDigits ip : ℚ) := by positivity
            linarith
        refine ⟨_, ?_, hpos⟩
        simp only [validar_monto, hpf]
        rw [if_neg (not_le.mpr hpos)]
  · intro v hv hle
    simp only [validar_monto, hv]
    rw [if_pos hle]
  · intro hn
    simp only [validar_monto, hn]

/-- Witness for C5: a thousands-separated decimal-comma amount accepted with
a positive value; a negative and a non-numeric input rejected. -/
theorem C5_witness :
    (∃ v, validar_monto "1.250,75" = (true, some v) ∧ 0 < v) ∧
    validar_monto "-5" = (false, none) ∧
    validar_monto "abc" = (false, none) :=
  ⟨(C5_validar_monto "1.250,75").1 (by decide),
   (C5_validar_monto "-5").2.1 (-5)
     (by simp +decide [pyFloatQ, cleanMonto, splitAtExp, mantissaOf, signSplit, natOfDigits,
       isDigitChar])
     (by norm_num),
   (C5_validar_monto "abc").2.2 (by decide)⟩

/-- Claim C6: for every input string, `normalizar_texto` trims surrounding
whitespace; the empty input and the literal `-` return `-`; otherwise it
returns the trimmed input truncated to `maxLength` characters (the call sites
use the default 200).  Stated as extensional equality with the
specification-side normalizer; the hypothesis `1 ≤ maxLength` excludes only
the degenerate zero-width truncation, far below the default. -/
theorem C6_normalizar_texto (texto : String) (maxLength : ℕ) (h : 1 ≤ maxLength) :
    normalizar_texto texto maxLength = normalize_text_spec texto maxLength := by
  have hdash : pyStrip "-" = "-" := by decide
  have htake : strTakeN "-" maxLength = "-" := by
    cases maxLength with
    | zero => exact absurd h (by omega)
    | succ n =>
      show String.mk (List.take (n + 1) ['-']) = "-"
      rw [List.take_succ_cons, List.take_nil]
  unfold normalizar_texto normalize_text_spec
  by_cases h0 : texto = ""
  · simp [h0]
  · by_cases h2 : texto = "-"
    · subst h2
      simp [hdash, htake]
    · by_cases h1 : pyStrip texto = "-"
      · simp [h0, h1, h2, htake]
      · simp [h0, h1, h2]

/-- Witness for C6 at a concrete input and the default width. -/
theorem C6_witness :
    1 ≤ 200 ∧ normalizar_texto "  Cliente Nuevo  " 200 = normalize_text_spec "  Cliente Nuevo  " 200 :=
  ⟨by decide, C6_normalizar_texto "  Cliente Nuevo  " 200 (by decide)⟩

/-- Claim C4, counterexample: entering the omission token `-` at the invoice
state stores the sentinel `S/N`, not the sentinel `N/A` asserted by the claim. -/
theorem C4_counterexample :
    (venta_factura "-" emptyVentaData).2.factura = some "S/N" ∧
    (venta_factura "-" emptyVentaData).1 = ConvResult.state VState.cliente ∧
    "S/N" ≠ "N/A" := by decide

/-- Claim C4 as amended: an omitted invoice number (any of the omission
tokens `-`, `s/n`, `S/N`, `sin`, `Sin`) is stored in the draft under the
sentinel `S/N`, and any other invoice number accepted by the flow (the state
advances) has length between 1 and 20 characters inclusive. -/
theorem C4_factura_amended (d : VentaData) (text : String)
    (h : (venta_factura text d).1 = ConvResult.state VState.cliente) :
    (venta_factura text d).2.factura = some "S/N" ∨
    ∃ m, (venta_factura text d).2.factura = some m ∧ m = pyStrip text ∧
      1 ≤ m.length ∧ m.length ≤ 20 := by
  by_cases h1 : pyStrip text ∈ omitirFactura
  · left
    simp [venta_factura, h1]
  · by_cases h2 : validar_numero_factura (pyStrip text) = true
    · have h3 : 1 ≤ (pyStrip text).length ∧ (pyStrip text).length ≤ 20 := by
        simpa [validar_numero_factura] using h2
      refine Or.inr ⟨pyStrip text, ?_, rfl, h3.1, h3.2⟩
      simp [venta_factura, h1, h2]
    · exfalso
      simp [venta_factura, h1, h2] at h

/-- Witness for C4 at a provided invoice number. -/
theorem C4_witness :
    (venta_factura "A100" emptyVentaData).2.factura = some "S/N" ∨
    ∃ m, (venta_factura "A100" emptyVentaData).2.factura = some m ∧ m = pyStrip "A100" ∧
      1 ≤ m.length ∧ m.length ≤ 20 :=
  C4_factura_amended emptyVentaData "A100" (by decide)

/-- Claim C1, counterexample: the payment-method state does not re-prompt on
input outside its choice set — it stores the text and advances to the notes
state — and the yes/no confirmation state does not re-prompt on input outside
its choice set — it terminates the flow. -/
theorem C1_counterexample :
    (venta_pago "Bitcoin" emptyVentaData).1 = ConvResult.state VState.obs ∧
    (venta_pago "Bitcoin" emptyVentaData).1 ≠ ConvResult.state VState.pago ∧
    MEDIOS_PAGO.contains "Bitcoin" = false ∧
    (venta_confirmar "tal vez" emptyVentaData).1 = ConvResult.stop ∧
    (venta_confirmar "tal vez" emptyVentaData).1 ≠ ConvResult.state VState.confirmar := by
  refine ⟨rfl, by decide, by decide, rfl, by decide⟩

/-- Claim C1 as amended: in the sale-entry flow the states that validate
their input — date, invoice number, amount — re-prompt the same state on
invalid input without changing the draft; the payment-method state performs
no validation (any text is stored and the flow advances to the notes state);
and the confirmation state treats any response outside the yes set
`sí/si/yes/s` as a rejection and terminates the flow, clearing the draft. -/
theorem C1_reprompt_amended :
    (∀ today text d, (validar_fecha today (pyStrip text)).1 = false →
        venta_fecha today text d = (ConvResult.state VState.fecha, d)) ∧
    (∀ text d, pyStrip text ∉ omitirFactura →
        validar_numero_factura (pyStrip text) = false →
        venta_factura text d = (ConvResult.state VState.factura, d)) ∧
    (∀ text d, (validar_monto (pyStrip text)).1 = false →
        venta_monto text d = (ConvResult.state VState.monto, d)) ∧
    (∀ text d, venta_pago text d =
        (ConvResult.state VState.obs, { d with pago := some (pyStrip text) })) ∧
    (∀ text d, pyLower (pyStrip text) ∉ yesRespuestas →
        venta_confirmar text d = (ConvResult.stop, emptyVentaData, none)) := by
  refine ⟨?_, ?_, ?_, ?_, ?_⟩
  · intro today text d h
    unfold venta_fecha
    simp [h]
  · intro text d h1 h2
    unfold venta_factura
    simp [h1, h2]
  · intro text d h
    unfold venta_monto
    simp [h]
  · intro text d
    unfold venta_pago
    rfl
  · intro text d h
    unfold venta_confirmar
    simp [h]

/-- Witness for C1 at concrete invalid inputs for each state. -/
theorem C1_witness :
    venta_fecha "15/01/2025" "31/02/2025" emptyVentaData =
      (ConvResult.state VState.fecha, emptyVentaData) ∧
    venta_factura "la factura numero cero cero uno de dos mil" emptyVentaData =
      (ConvResult.state VState.factura, emptyVentaData) ∧
    venta_monto "abc" emptyVentaData = (ConvResult.state VState.monto, emptyVentaData) ∧
    venta_confirmar "tal vez" emptyVentaData = (ConvResult.stop, emptyVentaData, none) :=
  ⟨C1_reprompt_amended.1 "15/01/2025" "31/02/2025" emptyVentaData (by decide),
   C1_reprompt_amended.2.1 "la factura numero cero cero uno de dos mil" emptyVentaData
     (by decide) (by decide),
   C1_reprompt_amended.2.2.1 "abc" emptyVentaData (by decide),
   C1_reprompt_amended.2.2.2.2 "tal vez" emptyVentaData (by decide)⟩

/-- Claim C2, counterexample: a completed sale-entry flow persists whatever
text the user sent at the payment state — here `Bitcoin`, not a member of the
five keyboard options — and the configured `Config.MEDIOS_PAGO` has six
elements (it additionally contains `Cheque`), so it is not the five-element
set either. -/
theorem C2_counterexample :
    ((runVenta "15/01/2025" ["hoy", "A100", "-", "50000", "Bitcoin", "-", "sí"]).persisted.map
      (fun r => r.medio_pago)) = some "Bitcoin" ∧
    MEDIOS_CIERRE.contains "Bitcoin" = false ∧
    MEDIOS_PAGO ≠ MEDIOS_CIERRE ∧
    MEDIOS_PAGO.length = 6 ∧
    MEDIOS_PAGO.contains "Cheque" = true := by
  refine ⟨?_, by decide, by decide, by decide, by decide⟩
  simp +decide [runVenta, ventaStep, venta_fecha, validar_fecha, pyLower, pyLowerChar, pyStrip,
    stripList, isPySpace, pyWhitespace, fechaFields, natOfDigits, isDigitChar, validCalendarDate,
    daysInMonth, isLeapYear, venta_factura, omitirFactura, validar_numero_factura, venta_cliente,
    normalizar_texto, strTakeN, venta_monto, validar_monto, cleanMonto, pyFloatQ, splitAtExp,
    signSplit, mantissaOf, venta_pago, venta_observaciones, venta_confirmar, yesRespuestas,
    ventaRecordOf, emptyVentaData]

/-- Claim C2 as amended: `Config.MEDIOS_PAGO` is the six-element list
`Efectivo, Transferencia, Tarjeta débito, Tarjeta crédito, Cheque, Otro`,
and the sale-entry flow does not validate membership: whatever text is sent
at the payment state is the payment method of the persisted record. -/
theorem C2_medios_pago_amended :
    MEDIOS_PAGO =
      ["Efectivo", "Transferencia", "Tarjeta débito", "Tarjeta crédito", "Cheque", "Otro"] ∧
    ∀ (d : VentaData) (pagoText obsText confirmText : String),
      pyLower (pyStrip confirmText) ∈ yesRespuestas →
      d.fecha.isSome = true → d.factura.isSome = true →
      d.cliente.isSome = true → d.monto.isSome = true →
      ((venta_confirmar confirmText
          (venta_observaciones obsText (venta_pago pagoText d).2).2).2.2.map
        (fun r => r.medio_pago)) = some (pyStrip pagoText) := by
  refine ⟨rfl, ?_⟩
  intro d pagoText obsText confirmText hc h1 h2 h3 h4
  obtain ⟨f, hf⟩ := Option.isSome_iff_exists.mp h1
  obtain ⟨nf, hnf⟩ := Option.isSome_iff_exists.mp h2
  obtain ⟨c, hcc⟩ := Option.isSome_iff_exists.mp h3
  obtain ⟨m, hm⟩ := Option.isSome_iff_exists.mp h4
  unfold venta_pago venta_observaciones venta_confirmar ventaRecordOf
  simp [hc, hf, hnf, hcc, hm]

/-- Witness for C2 at the concrete `Bitcoin` scenario. -/
theorem C2_witness :
    ((venta_confirmar "sí"
        (venta_observaciones "-"
          (venta_pago "Bitcoin"
            ⟨some "15/01/2025", some "A100", some "-", some 50000, none, none⟩).2).2).2.2.map
      (fun r => r.medio_pago)) = some (pyStrip "Bitcoin") :=
  C2_medios_pago_amended.2 ⟨some "15/01/2025", some "A100", some "-", some 50000, none, none⟩
    "Bitcoin" "-" "sí" (by decide) (by decide) (by decide) (by decide) (by decide)

/-- Claim C3, counterexample: `obtener_resumen_general` on the empty
transaction table returns the structured error dict, not a summary with zero
counts and totals. -/
theorem C3_counterexample :
    obtener_resumen_general [] = ResumenResult.error "No hay datos disponibles" ∧
    ¬ ∃ r, obtener_resumen_general [] = ResumenResult.ok r := by
  constructor
  · rfl
  · rintro ⟨r, hr⟩
    simp [obtener_resumen_general] at hr

/-- Claim C3 as amended: on an empty transaction table `summary()` returns
the structured error value (without raising); on a nonempty table the margin
computation is guarded — whenever total income is zero the margin is zero
rather than a division by zero. -/
theorem C3_resumen_amended :
    obtener_resumen_general [] = ResumenResult.error "No hay datos disponibles" ∧
    ∀ txs r, obtener_resumen_general txs = ResumenResult.ok r →
      r.total_ingresos = 0 → r.margen_utilidad = 0 := by
  refine ⟨rfl, ?_⟩
  intro txs r h hing
  simp only [obtener_resumen_general] at h
  by_cases h0 : txs.length = 0
  · simp [h0] at h
  · rw [if_neg h0] at h
    rw [ResumenResult.ok.injEq] at h
    subst h
    simp only [Resumen.total_ingresos] at hing
    simp only [Resumen.margen_utilidad]
    rw [hing]
    simp

/-- Witness for C3 at a one-row expense-only table (zero income). -/
theorem C3_witness :
    obtener_resumen_general [⟨"Gastos", 1, "luz", -5⟩] =
      ResumenResult.ok ⟨0, 5, -5, 0, 1, 0, 1, 0, 5, 1, 1⟩ ∧
    (⟨0, 5, -5, 0, 1, 0, 1, 0, 5, 1, 1⟩ : Resumen).margen_utilidad = 0 :=
  ⟨by norm_num [obtener_resumen_general, mean],
   C3_resumen_amended.2 [⟨"Gastos", 1, "luz", -5⟩] ⟨0, 5, -5, 0, 1, 0, 1, 0, 5, 1, 1⟩
     (by norm_num [obtener_resumen_general, mean]) rfl⟩

/-- Claim C10, counterexample: when only the sales read raises while the
expenses read succeeds, the totals record is not all-zero — the expense
fields still total the readable table. -/
theorem C10_counterexample :
    (calcular_totales (Except.error "APIError") (Except.ok [⟨"01/01/2025", 5⟩]) none none).total_gastos
      = 5 ∧
    (calcular_totales (Except.error "APIError") (Except.ok [⟨"01/01/2025", 5⟩]) none none).utilidad
      = -5 ∧
    calcular_totales (Except.error "APIError") (Except.ok [⟨"01/01/2025", 5⟩]) none none
      ≠ zeroTotales := by
  refine ⟨?_, ?_, ?_⟩
  · norm_num [calcular_totales, obtener_ventas, obtener_gastos]
  · norm_num [calcular_totales, obtener_ventas, obtener_gastos]
  · intro hEq
    have h5 := congrArg Totales.total_gastos hEq
    norm_num [calcular_totales, obtener_ventas, obtener_gastos, zeroTotales] at h5

/-- Claim C10 as amended: a failed read yields the empty row list for that
table and zero contribution to its totals and count (so the margin is zero
when the sales read fails); when both reads fail the totals record is the
all-zero record; no exception propagates, so a read failure is
indistinguishable from an empty period for that table. -/
theorem C10_read_failure_amended :
    (∀ e inicio fin, obtener_ventas (Except.error e) inicio fin = [] ∧
        obtener_gastos (Except.error e) inicio fin = []) ∧
    (∀ e g inicio fin,
        (calcular_totales (Except.error e) g inicio fin).total_ventas = 0 ∧
        (calcular_totales (Except.error e) g inicio fin).num_ventas = 0 ∧
        (calcular_totales (Except.error e) g inicio fin).margen = 0) ∧
    (∀ v e inicio fin,
        (calcular_totales v (Except.error e) inicio fin).total_gastos = 0 ∧
        (calcular_totales v (Except.error e) inicio fin).num_gastos = 0) ∧
    (∀ e1 e2 inicio fin,
        calcular_totales (Except.error e1) (Except.error e2) inicio fin = zeroTotales) := by
  refine ⟨?_, ?_, ?_, ?_⟩
  · intro e inicio fin
    exact ⟨rfl, rfl⟩
  · intro e g inicio fin
    unfold calcular_totales obtener_ventas
    simp
  · intro v e inicio fin
    unfold calcular_totales obtener_gastos
    simp
  · intro e1 e2 inicio fin
    unfold calcular_totales obtener_ventas obtener_gastos zeroTotales
    simp

/-- Claim C8: `entrenar_modelo_ventas` returns the structured error exactly
when the table holds fewer than 20 income transactions; with 20 or more it
returns the metrics result — a constructor distinct from the error shape —
for a model over the five calendar-derived features, split
`test = ceil(n/5)`, `train = n - test`. -/
theorem C8_entrenar (txs : List Transaccion) :
    ((entrenar_modelo_ventas txs).isError = true ↔
      (txs.filter (fun t => 0 < t.importe)).length < 20) ∧
    (20 ≤ (txs.filter (fun t => 0 < t.importe)).length →
      entrenar_modelo_ventas txs =
        EntrenarResult.metricas
          ((txs.filter (fun t => 0 < t.importe)).length -
            nTestSplit (txs.filter (fun t => 0 < t.importe)).length)
          (nTestSplit (txs.filter (fun t => 0 < t.importe)).length)
          featuresVentas) := by
  unfold entrenar_modelo_ventas ML_AVAILABLE
  by_cases h : (txs.filter (fun t => 0 < t.importe)).length < 20
  · simp [h, EntrenarResult.isError]
  · simp [h, EntrenarResult.isError]

theorem anomaliasDeTipo_const (umbral : ℚ) (txs : List Transaccion) (tipo : String)
    (h : ∀ t1 ∈ txs, ∀ t2 ∈ txs, tipoOf t1 = tipoOf t2 → |t1.importe| = |t2.importe|) :
    anomaliasDeTipo umbral txs tipo = [] := by
  simp only [anomaliasDeTipo]
  by_cases h0 : (txs.filter (fun t => tipoOf t == tipo)).length = 0
  · simp [h0]
  · rw [if_neg h0]
    set df := txs.filter (fun t => tipoOf t == tipo) with hdf
    have hmem : ∀ t ∈ df, t ∈ txs ∧ tipoOf t = tipo := by
      intro t ht
      rw [hdf, List.mem_filter] at ht
      exact ⟨ht.1, by simpa using ht.2⟩
    obtain ⟨t0, ht0⟩ : ∃ t, t ∈ df := List.exists_mem_of_length_pos (by omega)
    have hconst : ∀ t ∈ df, |t.importe| = |t0.importe| := by
      intro t ht
      exact h t (hmem t ht).1 t0 (hmem t0 ht0).1
        (by rw [(hmem t ht).2, (hmem t0 ht0).2])
    have hval : ∀ x ∈ df.map (fun t => |t.importe|), x = |t0.importe| := by
      intro x hx
      rw [List.mem_map] at hx
      obtain ⟨t, ht, hxx⟩ := hx
      rw [← hxx]
      exact hconst t ht
    have hnz : ((df.map (fun t => |t.importe|)).length : ℚ) ≠ 0 := by
      rw [List.length_map]
      exact_mod_cast h0
  -- the mean of a constant list is that constant
    have hmean : mean (df.map (fun t => |t.importe|)) = |t0.importe| := by
      unfold mean
      rw [List.sum_eq_card_nsmul _ _ hval, nsmul_eq_mul]
      exact mul_div_cancel_left₀ _ hnz
  -- every squared deviation is zero, so the sample variance is zero
    have hvar : varMuestral (df.map (fun t => |t.importe|)) = 0 := by
      unfold varMuestral
      have hz : ∀ x ∈ (df.map (fun t => |t.importe|)).map
          (fun v => (v - mean (df.map (fun t => |t.importe|))) ^ 2), x = 0 := by
        intro x hx
        rw [List.mem_map] at hx
        obtain ⟨v, hv, hxx⟩ := hx
        rw [← hxx, hval v hv, hmean]
        simp
      rw [List.sum_eq_card_nsmul _ _ hz]
      simp
    rw [List.filterMap_eq_nil_iff]
    intro t ht
    rw [hvar, hmean, hconst t ht]
    simp

/-- Claim C9: on a transaction table in which, within each type (income and
expense), all absolute amounts are identical, `detectar_anomalias` at the
default threshold 2.5 returns no flagged rows; a type with zero transactions
contributes nothing to the result and causes no division by zero (the
per-type loop skips it). -/
theorem C9_detectar_anomalias (txs : List Transaccion)
    (h : ∀ t1 ∈ txs, ∀ t2 ∈ txs, tipoOf t1 = tipoOf t2 → |t1.importe| = |t2.importe|) :
    detectar_anomalias (5 / 2) txs = [] := by
  unfold detectar_anomalias
  rw [anomaliasDeTipo_const _ _ _ h, anomaliasDeTipo_const _ _ _ h]
  simp

/-- Witness for C9 at a two-row table with one income and one expense. -/
theorem C9_witness :
    detectar_anomalias (5 / 2) [⟨"Ventas", 1, "a", 5⟩, ⟨"Gastos", 2, "b", -3⟩] = [] :=
  C9_detectar_anomalias [⟨"Ventas", 1, "a", 5⟩, ⟨"Gastos", 2, "b", -3⟩] (by
    intro t1 h1 t2 h2 hteq
    fin_cases h1 <;> fin_cases h2 <;> simp_all +decide [tipoOf])

/-- Witness for C8 at a concrete table of 21 income rows and one expense. -/
theorem C8_witness :
    entrenar_modelo_ventas
        (⟨"Gastos", 0, "x", -7⟩ :: List.replicate 21 ⟨"Ventas", 1, "v", 5⟩) =
      EntrenarResult.metricas 16 5 featuresVentas :=
  (C8_entrenar (⟨"Gastos", 0, "x", -7⟩ :: List.replicate 21 ⟨"Ventas", 1, "v", 5⟩)).2
    (by decide)

/-! ## Daily-close invariant (claim C7) -/

theorem cierreInv_mk_state (s : CState) (d : CDayData)
    (sh : Option (List (String × ℚ) × ℚ)) (hshape : montosShape d.montos s)
    (hconf : s = CState.confirmar →
      sh = some (d.montos.filter (fun p => 0 < p.2), sumValues d.montos)) :
    CierreInv ⟨ConvResult.state s, d, sh, none⟩ := by
  constructor
  · intro s' heq
    injection heq with h
    subst h
    exact ⟨hshape, rfl, hconf⟩
  · intro datos hd
    exact Option.noConfusion hd

theorem cierreInv_mk_stop_none (d : CDayData) (sh : Option (List (String × ℚ) × ℚ)) :
    CierreInv ⟨ConvResult.stop, d, sh, none⟩ := by
  constructor
  · intro s' heq
    exact ConvResult.noConfusion heq
  · intro datos hd
    exact Option.noConfusion hd

theorem bucketStep (key : String) (stay next : CState) (text : String) (d : CDayData) :
    cierreBucket key stay next text d = (ConvResult.state stay, d) ∨
    ∃ v, cierreBucket key stay next text d =
      (ConvResult.state next, { d with montos := setKey d.montos key v }) := by
  unfold cierreBucket
  by_cases h0 : pyStrip text = "0"
  · right
    exact ⟨0, by simp [h0]⟩
  · rcases hv : validar_monto (pyStrip text) with ⟨b, mv⟩
    cases b
    · left
      simp [h0, hv]
    · cases mv with
      | none =>
        left
        simp [h0, hv]
      | some m =>
        right
        exact ⟨m, by simp [h0, hv]⟩

theorem cierreStep_inv (today text : String) (r : CierreRun) (hr : CierreInv r) :
    CierreInv (cierreStep today text r) := by
  obtain ⟨hstate, hpers⟩ := hr
  rcases hres : r.result with s | _
  case stop =>
    simp only [cierreStep, hres]
    exact ⟨hstate, hpers⟩
  case state =>
    obtain ⟨hshape, hpnone, hconf⟩ := hstate s hres
    simp only [cierreStep, hres]
    cases s with
    | fecha =>
      rw [hpnone]
      unfold cierreday_fecha
      by_cases hv : (validar_fecha today (pyStrip text)).1 = false
      · rw [if_pos hv]
        exact cierreInv_mk_state _ _ _ trivial (by intro hx; exact absurd hx (by decide))
      · rw [if_neg hv]
        exact cierreInv_mk_state _ _ _ rfl (by intro hx; exact absurd hx (by decide))
    | efectivo =>
      rw [hpnone]
      simp only [cierreday_efectivo]
      rcases bucketStep "Efectivo" CState.efectivo CState.transferencia text r.data with
        hstep | ⟨v, hstep⟩ <;> rw [hstep]
      · exact cierreInv_mk_state _ _ _ hshape (by intro hx; exact absurd hx (by decide))
      · refine cierreInv_mk_state _ _ _ ?_ (by intro hx; exact absurd hx (by decide))
        simp only [montosShape] at hshape ⊢
        simp only [hshape]
        exact ⟨v, rfl⟩
    | transferencia =>
      rw [hpnone]
      simp only [cierreday_transferencia]
      rcases bucketStep "Transferencia" CState.transferencia CState.tarjetaDeb text r.data with
        hstep | ⟨v, hstep⟩ <;> rw [hstep]
      · exact cierreInv_mk_state _ _ _ hshape (by intro hx; exact absurd hx (by decide))
      · refine cierreInv_mk_state _ _ _ ?_ (by intro hx; exact absurd hx (by decide))
        simp only [montosShape] at hshape ⊢
        obtain ⟨v1, hm⟩ := hshape
        simp only [hm]
        exact ⟨v1, v, by simp +decide [setKey]⟩
    | tarjetaDeb =>
      rw [hpnone]
      simp only [cierreday_tarjeta_deb]
      rcases bucketStep "Tarjeta débito" CState.tarjetaDeb CState.tarjetaCred text r.data with
        hstep | ⟨v, hstep⟩ <;> rw [hstep]
      · exact cierreInv_mk_state _ _ _ hshape (by intro hx; exact absurd hx (by decide))
      · refine cierreInv_mk_state _ _ _ ?_ (by intro hx; exact absurd hx (by decide))
        simp only [montosShape] at hshape ⊢
        obtain ⟨v1, v2, hm⟩ := hshape
        simp only [hm]
        exact ⟨v1, v2, v, by simp +decide [setKey]⟩
    | tarjetaCred =>
      rw [hpnone]
      simp only [cierreday_tarjeta_cred]
      rcases bucketStep "Tarjeta crédito" CState.tarjetaCred CState.otro text r.data with
        hstep | ⟨v, hstep⟩ <;> rw [hstep]
      · exact cierreInv_mk_state _ _ _ hshape (by intro hx; exact absurd hx (by decide))
      · refine cierreInv_mk_state _ _ _ ?_ (by intro hx; exact absurd hx (by decide))
        simp only [montosShape] at hshape ⊢
        obtain ⟨v1, v2, v3, hm⟩ := hshape
        simp only [hm]
        exact ⟨v1, v2, v3, v, by simp +decide [setKey]⟩
    | otro =>
      rw [hpnone]
      simp only [cierreday_otro]
      rcases bucketStep "Otro" CState.otro CState.obs text r.data with
        hstep | ⟨v, hstep⟩ <;> rw [hstep]
      · exact cierreInv_mk_state _ _ _ hshape (by intro hx; exact absurd hx (by decide))
      · refine cierreInv_mk_state _ _ _ ?_ (by intro hx; exact absurd hx (by decide))
        simp only [montosShape] at hshape ⊢
        obtain ⟨v1, v2, v3, v4, hm⟩ := hshape
        simp only [hm]
        exact ⟨v1, v2, v3, v4, v, by simp +decide [setKey]⟩
    | obs =>
      rw [hpnone]
      unfold cierreday_obs
      refine cierreInv_mk_state _ _ _ ?_ ?_
      · simp only [montosShape] at hshape ⊢
        exact hshape
      · intro _
        rfl
    | confirmar =>
      unfold cierreday_confirmar
      by_cases hyes : yesRespuestas.contains (pyLower (pyStrip text)) = false
      · rw [if_pos hyes, hpnone]
        exact cierreInv_mk_stop_none _ _
      · rw [if_neg hyes]
        constructor
        · intro s' heq
          exact ConvResult.noConfusion heq
        · intro datos hd
          have hshown := hconf rfl
          simp only [montosShape] at hshape
          obtain ⟨v1, v2, v3, v4, v5, hm⟩ := hshape
          unfold cierreRecordOf at hd
          rcases hf : r.data.fecha with _ | f <;> rw [hf] at hd
          · exact Option.noConfusion hd
          rcases ho : r.data.obs with _ | o <;> rw [ho] at hd
          · exact Option.noConfusion hd
          rw [Option.some.injEq] at hd
          subst hd
          constructor
          · simp only [hm]
            simp +decide [getKeyD, sumValues]
            try ring
          · rw [hshown, hm]
            simp only [cierreBuckets]
            simp +decide [getKeyD, sumValues, hm]
            try ring

theorem foldl_cierreStep_inv (today : String) (inputs : List String) (r : CierreRun)
    (hr : CierreInv r) :
    CierreInv (inputs.foldl (fun r text => cierreStep today text r) r) := by
  induction inputs generalizing r with
  | nil => exact hr
  | cons a t ih => exact ih _ (cierreStep_inv today a r hr)

theorem runCierre_inv (today : String) (inputs : List String) :
    CierreInv (runCierre today inputs) := by
  unfold runCierre
  apply foldl_cierreStep_inv
  constructor
  · intro s heq
    have hs : ConvResult.state CState.fecha = ConvResult.state s := heq
    injection hs with hs
    subst hs
    exact ⟨trivial, rfl, by intro hx; exact absurd hx (by decide)⟩
  · intro datos hd
    exact Option.noConfusion hd

/-- Claim C7: for every completed daily-close flow — a run whose record was
handed to the store — the persisted total equals the sum of the five
payment-method bucket fields of the record, and the confirmation breakdown
shown before persisting lists exactly the buckets with positive amounts,
omitting every zero bucket. -/
theorem C7_cierre_diario (today : String) (inputs : List String) (datos : CierreRecord)
    (hp : (runCierre today inputs).persisted = some datos) :
    datos.total = datos.efectivo + datos.transferencia + datos.tarjeta_debito +
      datos.tarjeta_credito + datos.otro ∧
    (runCierre today inputs).shown =
      some ((cierreBuckets datos).filter (fun p => 0 < p.2), datos.total) := by
  exact (runCierre_inv today inputs).2 datos hp

/-- Witness for C7 at the specification scenario: buckets
`[Efectivo = 100000, 0, 0, 0, 0]`, notes `-`, confirmation `sí`. -/
theorem C7_witness :
    ∃ datos, (runCierre "15/01/2025" ["hoy", "100000", "0", "0", "0", "0", "-", "sí"]).persisted
        = some datos ∧
      datos.total = datos.efectivo + datos.transferencia + datos.tarjeta_debito +
        datos.tarjeta_credito + datos.otro ∧
      (runCierre "15/01/2025" ["hoy", "100000", "0", "0", "0", "0", "-", "sí"]).shown =
        some ((cierreBuckets datos).filter (fun p => 0 < p.2), datos.total) := by
  have hp : (runCierre "15/01/2025" ["hoy", "100000", "0", "0", "0", "0", "-", "sí"]).persisted
      = some ⟨"15/01/2025", 100000, 0, 0, 0, 0, 100000, "-"⟩ := by
    simp +decide [runCierre, cierreStep, cierreday_fecha, cierreday_efectivo,
      cierreday_transferencia, cierreday_tarjeta_deb, cierreday_tarjeta_cred, cierreday_otro,
      cierreday_obs, cierreday_confirmar, cierreBucket, cierreRecordOf, getKeyD, setKey,
      sumValues, initialCierreRun, emptyCDayData, validar_fecha, pyLower, pyLowerChar, pyStrip,
      stripList, isPySpace, pyWhitespace, fechaFields, natOfDigits, isDigitChar,
      validCalendarDate, daysInMonth, isLeapYear, validar_monto, cleanMonto, pyFloatQ,
      splitAtExp, signSplit, mantissaOf, normalizar_texto, strTakeN, yesRespuestas]
  exact ⟨_, hp, C7_cierre_diario _ _ _ hp⟩

end Surthilanas
